import Mathlib

/-!
# Shallow embedding of the distarray Distributed Array Protocol core

The repository ships only the protocol test-suite
(`distarray/local/tests/paralleltest_distributed_array_protocol.py`),
the package `__init__`, and examples; the `distarray.local` implementation
(LocalArray, the IndexMap family, the process grid, the export/import
codec) is not present.  The definitions below are therefore modelled from
the specification (sections 3, 4, 6, 7), kept consistent with the API and
the behaviour the shipped tests pin down.

Buffers live in an explicit `Store` so that buffer identity (aliasing
versus copying across export/import) is expressible: `test_round_trip_identity`
mutates the imported shard's buffer and asserts the original shard sees the
mutation, so the model's import adopts the exported buffer view without
copying.
-/

deriving instance DecidableEq for Except

/-- Product of a list of naturals (used for grid sizes and buffer extents). -/
def listProd : List Nat → Nat
  | [] => 1
  | x :: xs => x * listProd xs

/-- Association-list lookup: first binding of the key, if any. -/
def alookup {κ α : Type} [DecidableEq κ] : List (κ × α) → κ → Option α
  | [], _ => none
  | (k, v) :: rest, key => if k = key then some v else alookup rest key

/-- Modelled from the spec: the error kinds of §7 (the `distarray.error`
module is not under `src/`). -/
inductive Err where
  | invalidShape
  | invalidGridCoordinate
  | bufferSizeMismatch
  | unknownDistributionType
  | protocolError
  | invalidRank
  | incompatibleShards
deriving DecidableEq, Repr

/-- A heap of buffers; a buffer is identified by its index and holds a flat
sequence of elements.  Element values are abstract integers; the element
type (numpy dtype) is tracked separately as a tag. -/
abbrev Store : Type := List (List Int)

/-- Contents of the buffer with the given identity (empty if unallocated). -/
def Store.read (st : Store) (id : Nat) : List Int :=
  List.getD st id []

/-- Allocate a fresh buffer holding `data`; returns its identity and the
grown store. -/
def Store.alloc (st : Store) (data : List Int) : Nat × Store :=
  (List.length st, st ++ [data])

/-- Write value `v` at flat offset `i` of buffer `id` (models in-place
mutation of a shard's local buffer). -/
def Store.write (st : Store) (id i : Nat) (v : Int) : Store :=
  List.set st id (List.set (st.read id) i v)

/-- Modelled from the spec: the distribution-kind dependent part of a
DistributionDescriptor (§3).  The serialized `dist_type` tags are
`"n"`, `"b"`, `"c"`, `"u"`; block-cyclic reuses the `"b"` tag. -/
inductive DimDist where
  /-- Undistributed dimension. -/
  | n : DimDist
  /-- Block: grid extent, grid coordinate, chunk length, padding. -/
  | b (proc_grid_size proc_grid_rank block_size padding : Nat) : DimDist
  /-- Cyclic: grid extent, grid coordinate, wraparound flag. -/
  | c (proc_grid_size proc_grid_rank : Nat) (periodic : Bool) : DimDist
  /-- Unstructured: grid extent, grid coordinate, explicit owned indices. -/
  | u (proc_grid_size proc_grid_rank : Nat) (indices : List Nat) : DimDist
deriving DecidableEq, Repr

/-- Modelled from the spec: a per-dimension DistributionDescriptor (§3):
the global extent together with the kind-specific placement data. -/
structure DimSpec where
  size : Nat
  dist : DimDist
deriving DecidableEq, Repr

/-- The serialized `dist_type` tag of a dimension (§6). -/
def DimSpec.distType : DimSpec → String
  | ⟨_, .n⟩ => "n"
  | ⟨_, .b _ _ _ _⟩ => "b"
  | ⟨_, .c _ _ _⟩ => "c"
  | ⟨_, .u _ _ _⟩ => "u"

/-- The grid extent of a distributed dimension (`none` for `dist_type = n`). -/
def DimSpec.pgsOf : DimSpec → Option Nat
  | ⟨_, .n⟩ => none
  | ⟨_, .b g _ _ _⟩ => some g
  | ⟨_, .c g _ _⟩ => some g
  | ⟨_, .u g _ _⟩ => some g

/-- Replace the grid coordinate of a distributed dimension. -/
def DimSpec.setPgr : DimSpec → Nat → DimSpec
  | ⟨s, .n⟩, _ => ⟨s, .n⟩
  | ⟨s, .b g _ bs pad⟩, r => ⟨s, .b g r bs pad⟩
  | ⟨s, .c g _ per⟩, r => ⟨s, .c g r per⟩
  | ⟨s, .u g _ idxs⟩, r => ⟨s, .u g r idxs⟩

/-- Modelled from the spec: the local extent produced by the IndexMap of
each kind (§4.1): None keeps the global size, Block owns
`[r*bs, min(size, (r+1)*bs))`, Cyclic owns `ceil((size - r)/gs)` elements
(clamped at 0), Unstructured owns exactly its listed indices. -/
def localExtent (d : DimSpec) : Nat :=
  match d.dist with
  | .n => d.size
  | .b _ r bs _ => min d.size ((r + 1) * bs) - r * bs
  | .c gs r _ => (d.size - r + gs - 1) / gs
  | .u _ _ idxs => idxs.length

/-- Modelled from the spec: the set of global indices owned along one
dimension, as the image of the local index range under the IndexMap's
local-to-global translation (§4.1). -/
def ownedIndex (d : DimSpec) (g : Nat) : Prop :=
  match d.dist with
  | .n => g < d.size
  | .b _ r bs _ => ∃ l, l < localExtent d ∧ g = r * bs + l
  | .c gs r _ => ∃ l, l < localExtent d ∧ g = r + l * gs
  | .u _ _ idxs => g ∈ idxs

instance (d : DimSpec) (g : Nat) : Decidable (ownedIndex d g) := by
  unfold ownedIndex
  match d with
  | ⟨_, .n⟩ => exact inferInstance
  | ⟨_, .b _ _ _ _⟩ => exact inferInstance
  | ⟨_, .c _ _ _⟩ => exact inferInstance
  | ⟨_, .u _ _ _⟩ => exact inferInstance

/-- Row-major strides of a grid shape: `stride[i] = product(shape[i+1:])`. -/
def strides : List Nat → List Nat
  | [] => []
  | _ :: rest => listProd rest :: strides rest

/-- Modelled from the spec: row-major unraveling of a linear process rank
into grid coordinates (§4.2): `coords[i] = (rank / stride[i]) % shape[i]`. -/
def unravel (shape : List Nat) (rank : Nat) : List Nat :=
  (List.zip shape (strides shape)).map fun p => (rank / p.2) % p.1

/-- Modelled from the spec: the inverse row-major raveling of grid
coordinates to a linear rank (§4.2, `coords_to_rank`). -/
def coordsToRank : List Nat → List Nat → Nat
  | _ :: srest, c :: crest => c * listProd srest + coordsToRank srest crest
  | _, _ => 0

/-- Modelled from the spec: `rank_to_coords` of the ProcessGrid (§4.2);
fails with `InvalidRank` when `rank` is outside `[0, product(shape))`. -/
def rankToCoords (shape : List Nat) (rank : Nat) : Except Err (List Nat) :=
  if rank < listProd shape then .ok (unravel shape rank) else .error .invalidRank

/-- Modelled from the spec: the grid-consistency validation of §4.3/§7 —
walking the dimensions in order, every distributed dimension must match the
next grid-shape entry (its `proc_grid_size` equals that extent), and the
grid shape must be exhausted exactly (grid dimension count equals the
number of distributed dimensions). -/
def checkGridDims : List DimSpec → List Nat → Bool
  | [], [] => true
  | [], _ :: _ => false
  | d :: ds, gs =>
    match d.pgsOf with
    | none => checkGridDims ds gs
    | some g =>
      match gs with
      | [] => false
      | g0 :: gs' => g = g0 && checkGridDims ds gs'

/-- Assign the process's grid coordinates to the distributed dimensions in
order (each distributed dimension consumes the next coordinate). -/
def assignCoords : List DimSpec → List Nat → List DimSpec
  | [], _ => []
  | d :: ds, cs =>
    match d.pgsOf with
    | none => d :: assignCoords ds cs
    | some _ => d.setPgr (cs.headD 0) :: assignCoords ds (cs.tail)

/-- A buffer view: the identity of an underlying buffer plus its element
type tag and its shape — what numpy's buffer protocol exposes without
copying the data. -/
structure BufferView where
  id : Nat
  dtype : String
  shape : List Nat
deriving DecidableEq, Repr

/-- Modelled from the spec: a LocalArray (§3): the shard owned by one
process — its per-dimension descriptors, its grid shape, its linear rank,
the derived local shape, the element-type tag, and the identity of its
local buffer in the store. -/
structure LocalArray where
  dim_data : List DimSpec
  grid_shape : List Nat
  rank : Nat
  local_shape : List Nat
  dtype : String
  bufId : Nat
deriving DecidableEq, Repr

/-- Number of dimensions of the shard's global array. -/
def LocalArray.ndim (L : LocalArray) : Nat := L.dim_data.length

/-- The global shape: the per-dimension global extents. -/
def LocalArray.global_shape (L : LocalArray) : List Nat := L.dim_data.map (·.size)

/-- The per-dimension distribution tags (the test-suite's `larr.dist`). -/
def LocalArray.dist (L : LocalArray) : List String := L.dim_data.map (·.distType)

/-- The shard's local buffer contents. -/
def LocalArray.contents (L : LocalArray) (st : Store) : List Int := st.read L.bufId

/-- Modelled from the spec: LocalArray construction (§4.3).  Validates
eagerly: the distributed-dimension count and extents must agree with
`grid_shape` (`InvalidGridCoordinate`), the rank must lie inside the grid
(`InvalidRank`); then the rank is unraveled to grid coordinates, which are
assigned to the distributed dimensions.  A caller-supplied buffer view is
adopted (its shape becomes the local shape, validated for dimensionality
and underlying size, `BufferSizeMismatch` otherwise); with no buffer the
local shape is derived per dimension by the IndexMap family and a
zero-initialized buffer is allocated. -/
def LocalArray.construct (dim_data : List DimSpec) (grid_shape : List Nat)
    (rank : Nat) (dtype : String) (buf : Option BufferView) (st : Store) :
    Except Err (LocalArray × Store) :=
  if checkGridDims dim_data grid_shape then
    if rank < listProd grid_shape then
      let dims := assignCoords dim_data (unravel grid_shape rank)
      match buf with
      | some v =>
        if v.shape.length = dims.length then
          if (st.read v.id).length = listProd v.shape then
            .ok ({ dim_data := dims, grid_shape := grid_shape, rank := rank,
                   local_shape := v.shape, dtype := v.dtype, bufId := v.id }, st)
          else .error .bufferSizeMismatch
        else .error .bufferSizeMismatch
      | none =>
        let lshape := dims.map localExtent
        let a := st.alloc (List.replicate (listProd lshape) 0)
        .ok ({ dim_data := dims, grid_shape := grid_shape, rank := rank,
               local_shape := lshape, dtype := dtype, bufId := a.1 }, a.2)
    else .error .invalidRank
  else .error .invalidGridCoordinate

/-- Default block size for a Block dimension: `ceil(size / grid_size)` (§4.1). -/
def blockSizeDefault (size gs : Nat) : Nat := (size + gs - 1) / gs

/-- Default padding for a Block dimension:
`grid_size*block_size - size` when positive, else 0 (§4.1). -/
def paddingDefault (size gs bs : Nat) : Nat := gs * bs - size

/-- The per-dimension distribution tag requested by the caller's `dist`
mapping: look the dimension index up, defaulting to undistributed
(the test-suite's `dist={0: 'b', 1: 'n'}` arguments). -/
def distChar (dist : List (Nat × Char)) (i : Nat) : Char :=
  (alookup dist i).getD 'n'

/-- Modelled from the spec: derive the per-dimension descriptors from the
caller's global shape, `dist` mapping and grid shape (§4.3): each
distributed dimension consumes the next grid extent and gets the default
block size and padding; an unrecognized tag is `UnknownDistributionType`;
a missing grid extent is `InvalidGridCoordinate`. -/
def buildDims (sizes : List Nat) (dc : Nat → Char) (i : Nat) (grid : List Nat) :
    Except Err (List DimSpec) :=
  match sizes with
  | [] => .ok []
  | size :: rest =>
    if dc i = 'n' then
      (buildDims rest dc (i + 1) grid).map (⟨size, .n⟩ :: ·)
    else if dc i = 'b' then
      match grid with
      | g :: grid' =>
        (buildDims rest dc (i + 1) grid').map
          (⟨size, .b g 0 (blockSizeDefault size g)
              (paddingDefault size g (blockSizeDefault size g))⟩ :: ·)
      | [] => .error .invalidGridCoordinate
    else if dc i = 'c' then
      match grid with
      | g :: grid' =>
        (buildDims rest dc (i + 1) grid').map (⟨size, .c g 0 false⟩ :: ·)
      | [] => .error .invalidGridCoordinate
    else .error .unknownDistributionType

/-- Modelled from the spec: the high-level LocalArray constructor used by
the test-suite (`da.LocalArray(shape, dtype, dist, grid_shape, comm, buf)`):
derive the descriptors from the `dist` mapping, then construct. -/
def LocalArray.create (shape : List Nat) (dist : List (Nat × Char))
    (grid : List Nat) (rank : Nat) (dtype : String) (buf : Option BufferView)
    (st : Store) : Except Err (LocalArray × Store) :=
  match buildDims shape (distChar dist) 0 grid with
  | .ok dims => LocalArray.construct dims grid rank dtype buf st
  | .error e => .error e

/-- A value appearing in a serialized `dim_descriptor` (§6): integers,
booleans, or ordered integer sequences. -/
inductive DVal where
  | int (i : Int)
  | bool (b : Bool)
  | str (s : String)
  | ints (l : List Int)
deriving DecidableEq, Repr

/-- A value appearing at the top level of a protocol descriptor (§6): the
version string, the zero-copy buffer view, or the list of per-dimension
key/value dictionaries. -/
inductive TopVal where
  | str (s : String)
  | buf (v : BufferView)
  | dims (l : List (List (String × DVal)))
deriving DecidableEq, Repr

/-- The protocol version string emitted by export (§6: `major.minor.patch`). -/
def protocolVersion : String := "0.1.0"

/-- Modelled from the spec: serialize one DistributionDescriptor with only
the keys relevant to its `dist_type` (§4.4, §6). -/
def dimToAlist (d : DimSpec) : List (String × DVal) :=
  match d with
  | ⟨size, .n⟩ => [("dist_type", .str "n"), ("size", .int size)]
  | ⟨size, .b g r bs pad⟩ =>
    [("dist_type", .str "b"), ("size", .int size),
     ("proc_grid_size", .int g), ("proc_grid_rank", .int r),
     ("block_size", .int bs), ("padding", .int pad)]
  | ⟨size, .c g r per⟩ =>
    [("dist_type", .str "c"), ("size", .int size),
     ("proc_grid_size", .int g), ("proc_grid_rank", .int r),
     ("periodic", .bool per)]
  | ⟨size, .u g r idxs⟩ =>
    [("dist_type", .str "u"), ("size", .int size),
     ("proc_grid_size", .int g), ("proc_grid_rank", .int r),
     ("indices", .ints (idxs.map Int.ofNat))]

/-- Look a mandatory non-negative integer key up in a dim dictionary
(`ProtocolError` when missing, not an integer, or negative). -/
def lookupNat (a : List (String × DVal)) (key : String) : Except Err Nat :=
  match alookup a key with
  | some (.int i) => if 0 ≤ i then .ok i.toNat else .error .protocolError
  | _ => .error .protocolError

/-- Parse a serialized list of global indices (unstructured case). -/
def parseIndices : List Int → Except Err (List Nat)
  | [] => .ok []
  | i :: rest =>
    if 0 ≤ i then (parseIndices rest).map (i.toNat :: ·)
    else .error .protocolError

/-- Modelled from the spec: parse one `dim_descriptor` (§4.4, §6): the
mandatory keys `dist_type` and `size` plus the kind-specific keys;
`ProtocolError` on anything missing or malformed, unknown extra keys are
ignored. -/
def parseDim (a : List (String × DVal)) : Except Err DimSpec :=
  match alookup a "dist_type" with
  | some (.str dt) =>
    match lookupNat a "size" with
    | .ok size =>
      if dt = "n" then .ok ⟨size, .n⟩
      else if dt = "b" then
        match lookupNat a "proc_grid_size", lookupNat a "proc_grid_rank",
              lookupNat a "block_size", lookupNat a "padding" with
        | .ok g, .ok r, .ok bs, .ok pad => .ok ⟨size, .b g r bs pad⟩
        | _, _, _, _ => .error .protocolError
      else if dt = "c" then
        match lookupNat a "proc_grid_size", lookupNat a "proc_grid_rank",
              alookup a "periodic" with
        | .ok g, .ok r, some (.bool per) => .ok ⟨size, .c g r per⟩
        | _, _, _ => .error .protocolError
      else if dt = "u" then
        match lookupNat a "proc_grid_size", lookupNat a "proc_grid_rank",
              alookup a "indices" with
        | .ok g, .ok r, some (.ints l) =>
          match parseIndices l with
          | .ok idxs => .ok ⟨size, .u g r idxs⟩
          | .error e => .error e
        | _, _, _ => .error .protocolError
      else .error .protocolError
    | .error e => .error e
  | _ => .error .protocolError

/-- Parse every entry of `dim_data` in order. -/
def parseDims : List (List (String × DVal)) → Except Err (List DimSpec)
  | [] => .ok []
  | a :: rest =>
    match parseDim a with
    | .ok d => (parseDims rest).map (d :: ·)
    | .error e => .error e

/-- Split a character sequence at the dots. -/
def splitDots : List Char → List (List Char)
  | [] => [[]]
  | ch :: rest =>
    let r := splitDots rest
    if ch = '.' then [] :: r else (ch :: r.headD []) :: r.tail

/-- Read a non-empty all-digit character sequence as a number. -/
def digitsToNat (cs : List Char) : Option Nat :=
  if cs = [] then none
  else if cs.all Char.isDigit then
    some (cs.foldl (fun a ch => 10 * a + (ch.toNat - 48)) 0)
  else none

/-- Parse a `major.minor.patch` semantic version string. -/
def parseVersion (s : String) : Option (Nat × Nat × Nat) :=
  match splitDots s.data with
  | [a, b, c] =>
    match digitsToNat a, digitsToNat b, digitsToNat c with
    | some x, some y, some z => some (x, y, z)
    | _, _, _ => none
  | _ => none

/-- Modelled from the spec: `export` / `__distarray__` (§4.4, §6): the
descriptor with exactly the keys `__version__`, `buffer` (a zero-copy view
of the local buffer) and `dim_data` (one serialized descriptor per
dimension). -/
def exportArr (L : LocalArray) : List (String × TopVal) :=
  [("__version__", .str protocolVersion),
   ("buffer", .buf ⟨L.bufId, L.dtype, L.local_shape⟩),
   ("dim_data", .dims (L.dim_data.map dimToAlist))]

/-- Modelled from the spec: `import` / `from_distarray` (§4.4): validate
the version is parseable, parse every dim dictionary, recover the grid
shape from the distributed dimensions' extents, and construct a LocalArray
for `rank` adopting the descriptor's buffer view (the shipped
`test_round_trip_identity` pins adoption, not copying).  `importDims` is
the final step, factored out: construct from parsed descriptors, the grid
shape recovered from the distributed dimensions' extents, adopting the
buffer view. -/
def importDims (e : Except Err (List DimSpec)) (rank : Nat) (view : BufferView)
    (st : Store) : Except Err (LocalArray × Store) :=
  match e with
  | .ok dims =>
    LocalArray.construct dims (dims.filterMap DimSpec.pgsOf) rank
      view.dtype (some view) st
  | .error e => .error e

def importDescriptor (desc : List (String × TopVal)) (rank : Nat) (st : Store) :
    Except Err (LocalArray × Store) :=
  match alookup desc "__version__" with
  | some (.str v) =>
    if (parseVersion v).isSome then
      match alookup desc "buffer" with
      | some (.buf view) =>
        match alookup desc "dim_data" with
        | some (.dims das) => importDims (parseDims das) rank view st
        | _ => .error .protocolError
      | _ => .error .protocolError
    else .error .protocolError
  | _ => .error .protocolError

/-- Modelled from the spec: the BlockCyclic IndexMap's owned set (§4.1):
partition the dimension into blocks of `block_size` and deal the blocks
round-robin; the shard at `grid_rank` owns every `grid_size`-th block
starting at its rank. -/
def bcOwns (size gs bs r g : Nat) : Prop :=
  g < size ∧ ∃ k, g / bs = r + k * gs

/-- The contents `numpy.arange(n)` of the test fixtures' buffers. -/
def arange (n : Nat) : List Int := (List.range n).map Int.ofNat

/-- Fixture: the `(16,16)` block-over-`(4,)` shard of rank 2
(`TestDapBasic`), as produced by `LocalArray.construct`. -/
def c1arr : LocalArray :=
  ⟨[⟨16, .b 4 2 4 0⟩, ⟨16, .n⟩], [4], 2, [4, 16], "float64", 0⟩

/-- Fixture: the store after constructing `c1arr` with a fresh buffer. -/
def c1store : Store := [List.replicate 64 0]

/-- Fixture: the rank-0 lopsided shard of `TestDapLopsided`: global size 50
block-distributed over 2 ranks with an explicit 20-element buffer. -/
def c3arr0 : LocalArray := ⟨[⟨50, .b 2 0 25 0⟩], [2], 0, [20], "float64", 0⟩

/-- Fixture: the rank-1 lopsided shard with an explicit 30-element buffer. -/
def c3arr1 : LocalArray := ⟨[⟨50, .b 2 1 25 0⟩], [2], 1, [30], "float64", 0⟩

/-- Fixture: the `(53,77)` block-block shard over grid `(2,2)` at rank 3,
grid coordinates `(1,1)` (`TestDapTwoDistDims`). -/
def c5arr : LocalArray :=
  ⟨[⟨53, .b 2 1 27 1⟩, ⟨77, .b 2 1 39 1⟩], [2, 2], 3, [26, 38], "float64", 0⟩

/-- Fixture: the store after constructing `c5arr` with a fresh buffer. -/
def c5store : Store := [List.replicate 988 0]

/-- Fixture: the `(16,16)` uint8 shard of rank 0 (`TestDapUint`). -/
def c9arr : LocalArray :=
  ⟨[⟨16, .b 4 0 4 0⟩, ⟨16, .n⟩], [4], 0, [4, 16], "uint8", 0⟩

/-- Fixture: the store after constructing `c9arr` with a fresh buffer. -/
def c9store : Store := [List.replicate 64 0]

/-- Fixture: the 1-D size-50 block shard of rank 0 over grid `(2,)` with a
derived (balanced) local shape. -/
def c10arr : LocalArray := ⟨[⟨50, .b 2 0 25 0⟩], [2], 0, [25], "float64", 0⟩

/-- Fixture: the store after constructing `c10arr` with a fresh buffer. -/
def c10store : Store := [List.replicate 25 0]

/-! ## Helper lemmas -/

theorem listProd_nil : listProd [] = 1 := rfl

theorem listProd_cons (x : Nat) (xs : List Nat) :
    listProd (x :: xs) = x * listProd xs := rfl

/-- Serializing then parsing an index list is the identity. -/
theorem parseIndices_map (idxs : List Nat) :
    parseIndices (idxs.map Int.ofNat) = .ok idxs := by
  induction idxs with
  | nil => rfl
  | cons x xs ih => simp [parseIndices, ih, Except.map]

/-- Serializing then parsing one dimension descriptor is the identity. -/
theorem parseDim_dimToAlist (d : DimSpec) : parseDim (dimToAlist d) = .ok d := by
  obtain ⟨size, dist⟩ := d
  cases dist with
  | n => simp [parseDim, dimToAlist, alookup, lookupNat]
  | b g r bs pad => simp [parseDim, dimToAlist, alookup, lookupNat]
  | c g r per => simp [parseDim, dimToAlist, alookup, lookupNat]
  | u g r idxs =>
    simp [parseDim, dimToAlist, alookup, lookupNat, parseIndices_map]

/-- Serializing then parsing a whole `dim_data` list is the identity. -/
theorem parseDims_map (l : List DimSpec) :
    parseDims (l.map dimToAlist) = .ok l := by
  induction l with
  | nil => rfl
  | cons d ds ih => simp [parseDims, parseDim_dimToAlist, ih, Except.map]

/-- Reassigning a grid coordinate keeps the grid extent. -/
theorem pgsOf_setPgr (d : DimSpec) (r : Nat) : (d.setPgr r).pgsOf = d.pgsOf := by
  obtain ⟨size, dist⟩ := d
  cases dist <;> rfl

/-- Reassigning a grid coordinate twice keeps only the last assignment. -/
theorem setPgr_setPgr (d : DimSpec) (r r' : Nat) :
    (d.setPgr r).setPgr r' = d.setPgr r' := by
  obtain ⟨size, dist⟩ := d
  cases dist <;> rfl

/-- The grid-consistency check holds exactly when the distributed
dimensions' grid extents, in order, are the grid shape. -/
theorem checkGridDims_iff (dims : List DimSpec) (gs : List Nat) :
    checkGridDims dims gs = true ↔ dims.filterMap DimSpec.pgsOf = gs := by
  induction dims generalizing gs with
  | nil => cases gs <;> simp [checkGridDims]
  | cons d ds ih =>
    match h : d.pgsOf with
    | none =>
      cases gs <;> simp [checkGridDims, h, ih]
    | some g =>
      cases gs with
      | nil => simp [checkGridDims, h]
      | cons g0 gs' => simp [checkGridDims, h, ih]

/-- Assigning coordinates does not change the grid extents. -/
theorem filterMap_assignCoords (dims : List DimSpec) (cs : List Nat) :
    (assignCoords dims cs).filterMap DimSpec.pgsOf
      = dims.filterMap DimSpec.pgsOf := by
  induction dims generalizing cs with
  | nil => rfl
  | cons d ds ih =>
    match h : d.pgsOf with
    | none => simp [assignCoords, h, ih]
    | some g => simp [assignCoords, h, ih, pgsOf_setPgr, pgsOf_setPgr d]

/-- Assigning the same coordinates twice equals assigning them once. -/
theorem assignCoords_idem (dims : List DimSpec) (cs : List Nat) :
    assignCoords (assignCoords dims cs) cs = assignCoords dims cs := by
  induction dims generalizing cs with
  | nil => rfl
  | cons d ds ih =>
    match h : d.pgsOf with
    | none => simp [assignCoords, h, ih]
    | some g =>
      simp [assignCoords, h, pgsOf_setPgr, setPgr_setPgr, ih]

/-- Assigning coordinates preserves the number of dimensions. -/
theorem length_assignCoords (dims : List DimSpec) (cs : List Nat) :
    (assignCoords dims cs).length = dims.length := by
  induction dims generalizing cs with
  | nil => rfl
  | cons d ds ih =>
    match h : d.pgsOf with
    | none => simp [assignCoords, h, ih]
    | some g => simp [assignCoords, h, ih]

/-- Reading a freshly allocated buffer returns its contents. -/
theorem Store.read_alloc (st : Store) (x : List Int) :
    Store.read (st ++ [x]) st.length = x := by
  simp [Store.read]

/-- The protocol version emitted by export parses. -/
theorem parseVersion_protocolVersion : (parseVersion protocolVersion).isSome := by
  decide

/-- One step of unraveling: the leading coordinate is
`(rank / stride) % extent` and the remaining coordinates are the
unraveling of the tail shape. -/
theorem unravel_cons (s : Nat) (rest : List Nat) (rank : Nat) :
    unravel (s :: rest) rank
      = (rank / listProd rest) % s :: unravel rest rank := rfl

/-- Raveling the unraveled coordinates recovers the rank modulo the grid
size (for in-range ranks, the rank itself). -/
theorem coordsToRank_unravel (shape : List Nat) (rank : Nat) :
    coordsToRank shape (unravel shape rank) = rank % listProd shape := by
  induction shape generalizing rank with
  | nil => simp [unravel, coordsToRank, listProd, Nat.mod_one]
  | cons s rest ih =>
    rw [unravel_cons]
    show (rank / listProd rest) % s * listProd rest
        + coordsToRank rest (unravel rest rank) = rank % listProd (s :: rest)
    rw [ih, listProd_cons, Nat.mul_comm s (listProd rest), Nat.mod_mul]
    ring

/-- Unraveling yields one coordinate per grid dimension. -/
theorem length_unravel (shape : List Nat) (rank : Nat) :
    (unravel shape rank).length = shape.length := by
  simp [unravel]
  induction shape with
  | nil => rfl
  | cons s rest ih => simpa [strides] using ih

/-- Each unraveled coordinate is within its grid extent. -/
theorem unravel_lt (shape : List Nat) (rank : Nat) (h : ∀ s ∈ shape, 0 < s) :
    ∀ p ∈ (unravel shape rank).zip shape, p.1 < p.2 := by
  induction shape generalizing rank with
  | nil => simp [unravel]
  | cons s rest ih =>
    rw [unravel_cons]
    intro p hp
    rcases List.mem_cons.mp hp with h0 | h1
    · subst h0
      exact Nat.mod_lt _ (h s (List.mem_cons_self s rest))
    · exact ih rank (fun x hx => h x (List.mem_cons_of_mem s hx)) p h1

/-- The grid holds `size ≤ grid_size * ceil(size / grid_size)` elements:
the default block size covers the dimension. -/
theorem size_le_mul_blockSizeDefault (size gs : Nat) (hgs : 0 < gs) :
    size ≤ gs * blockSizeDefault size gs := by
  unfold blockSizeDefault
  have h1 := Nat.div_add_mod (size + gs - 1) gs
  have h2 : (size + gs - 1) % gs < gs := Nat.mod_lt _ hgs
  generalize hq : (size + gs - 1) / gs = q at h1
  generalize hr : (size + gs - 1) % gs = rem at h1 h2
  generalize hA : gs * q = A at h1 ⊢
  omega

/-- A natural number sits below the next block boundary. -/
theorem lt_succ_div_mul (g bs : Nat) (hbs : 0 < bs) : g < (g / bs + 1) * bs := by
  have h1 := Nat.div_add_mod g bs
  have h2 : g % bs < bs := Nat.mod_lt _ hbs
  generalize hq : g / bs = q at h1 ⊢
  generalize hr : g % bs = rem at h1 h2
  have : (q + 1) * bs = bs * q + bs := by ring
  rw [this]
  omega

/-- The Block IndexMap's owned set is exactly the contiguous interval
`[r*bs, min(size, (r+1)*bs))` (§4.1). -/
theorem blockOwned_iff (size gs r bs pad g : Nat) :
    ownedIndex ⟨size, .b gs r bs pad⟩ g
      ↔ r * bs ≤ g ∧ g < min size ((r + 1) * bs) := by
  show (∃ l, l < min size ((r + 1) * bs) - r * bs ∧ g = r * bs + l) ↔ _
  have hsucc : (r + 1) * bs = r * bs + bs := by ring
  rw [hsucc]
  generalize r * bs = a
  constructor
  · rintro ⟨l, hl, rfl⟩
    omega
  · rintro ⟨h1, h2⟩
    exact ⟨g - a, by omega, by omega⟩

/-- The Cyclic IndexMap's owned set is exactly the residue class of the
grid coordinate inside `[0, size)` (§4.1). -/
theorem cyclicOwned_iff (size gs r g : Nat) (per : Bool) (hgs : 0 < gs)
    (hr : r < gs) :
    ownedIndex ⟨size, .c gs r per⟩ g ↔ g < size ∧ g % gs = r := by
  show (∃ l, l < (size - r + gs - 1) / gs ∧ g = r + l * gs) ↔ _
  constructor
  · rintro ⟨l, hl, rfl⟩
    rcases Nat.lt_or_ge r size with hrs | hrs
    · have hext : (size - r + gs - 1) / gs = (size - r - 1) / gs + 1 := by
        have : size - r + gs - 1 = (size - r - 1) + gs := by omega
        rw [this, Nat.add_div_right _ hgs]
      rw [hext] at hl
      have hle : l ≤ (size - r - 1) / gs := by omega
      have hml : l * gs ≤ ((size - r - 1) / gs) * gs :=
        Nat.mul_le_mul_right gs hle
      have hdm : ((size - r - 1) / gs) * gs ≤ size - r - 1 :=
        Nat.div_mul_le_self _ gs
      constructor
      · omega
      · rw [Nat.add_mul_mod_self_right]
        exact Nat.mod_eq_of_lt hr
    · have hz : size - r = 0 := by omega
      rw [hz] at hl
      have : (0 + gs - 1) / gs = 0 := Nat.div_eq_of_lt (by omega)
      omega
  · rintro ⟨hsize, hmod⟩
    refine ⟨g / gs, ?_, ?_⟩
    · have hrg : r < size := by
        have : g % gs ≤ g := Nat.mod_le g gs
        omega
      have hext : (size - r + gs - 1) / gs = (size - r - 1) / gs + 1 := by
        have : size - r + gs - 1 = (size - r - 1) + gs := by omega
        rw [this, Nat.add_div_right _ hgs]
      rw [hext]
      have h1 := Nat.div_add_mod g gs
      have hle : g / gs * gs ≤ size - r - 1 := by
        rw [hmod] at h1
        generalize hq : g / gs = q at h1 ⊢
        generalize hA : q * gs = A at h1 ⊢
        have : gs * q = A := by rw [← hA]; ring
        omega
      have := (Nat.le_div_iff_mul_le hgs).mpr hle
      omega
    · have h1 := Nat.div_add_mod g gs
      rw [hmod] at h1
      generalize hq : g / gs = q at h1 ⊢
      generalize hA : q * gs = A at h1 ⊢
      have : gs * q = A := by rw [← hA]; ring
      omega

/-- C4 core, Block with the default block size: every global index below
`size` is owned by exactly one grid coordinate. -/
theorem blockPartition (size gs pad g : Nat) (hgs : 0 < gs) :
    g < size ↔ ∃! r, r < gs ∧
      ownedIndex ⟨size, .b gs r (blockSizeDefault size gs) pad⟩ g := by
  have hcover := size_le_mul_blockSizeDefault size gs hgs
  generalize hbsdef : blockSizeDefault size gs = bs at hcover ⊢
  constructor
  · intro hg
    have hbs : 0 < bs := by
      rcases Nat.eq_zero_or_pos bs with h0 | h0
      · rw [h0, Nat.mul_zero] at hcover; omega
      · exact h0
    refine ⟨g / bs, ⟨?_, ?_⟩, ?_⟩
    · exact (Nat.div_lt_iff_lt_mul hbs).mpr (by omega)
    · rw [blockOwned_iff]
      exact ⟨Nat.div_mul_le_self g bs,
        lt_min hg (lt_succ_div_mul g bs hbs)⟩
    · rintro r' ⟨_, howned⟩
      rw [blockOwned_iff] at howned
      obtain ⟨hlo, hhi⟩ := howned
      exact (Nat.div_eq_of_lt_le hlo (lt_of_lt_of_le hhi (min_le_right _ _))).symm
  · rintro ⟨r, ⟨_, howned⟩, _⟩
    rw [blockOwned_iff] at howned
    exact lt_of_lt_of_le howned.2 (min_le_left _ _)

/-- C4 core, Cyclic: every global index below `size` is owned by exactly
one grid coordinate. -/
theorem cyclicPartition (size gs g : Nat) (per : Bool) (hgs : 0 < gs) :
    g < size ↔ ∃! r, r < gs ∧ ownedIndex ⟨size, .c gs r per⟩ g := by
  constructor
  · intro hg
    refine ⟨g % gs, ⟨Nat.mod_lt _ hgs, ?_⟩, ?_⟩
    · rw [cyclicOwned_iff size gs _ g per hgs (Nat.mod_lt _ hgs)]
      exact ⟨hg, rfl⟩
    · rintro r' ⟨hr', howned⟩
      rw [cyclicOwned_iff size gs r' g per hgs hr'] at howned
      exact howned.2.symm
  · rintro ⟨r, ⟨hr, howned⟩, _⟩
    rw [cyclicOwned_iff size gs r g per hgs hr] at howned
    exact howned.1

/-- C4 core, BlockCyclic: every global index below `size` is owned by
exactly one grid coordinate. -/
theorem blockCyclicPartition (size gs bs g : Nat) (hgs : 0 < gs) :
    g < size ↔ ∃! r, r < gs ∧ bcOwns size gs bs r g := by
  constructor
  · intro hg
    refine ⟨g / bs % gs, ⟨Nat.mod_lt _ hgs, hg, g / bs / gs, ?_⟩, ?_⟩
    · rw [Nat.mod_add_div']
    · rintro r' ⟨hr', _, k', hk'⟩
      rw [hk', Nat.add_mul_mod_self_right]
      exact (Nat.mod_eq_of_lt hr').symm
  · rintro ⟨r, ⟨_, hg, _⟩, _⟩
    exact hg

/-- Importing a shard's own export is importing its dim data with its own
buffer view: the top-level descriptor lookups and the version check reduce
definitionally. -/
theorem importDescriptor_exportArr (L : LocalArray) (rank : Nat) (st : Store) :
    importDescriptor (exportArr L) rank st
      = importDims (parseDims (L.dim_data.map dimToAlist)) rank
          ⟨L.bufId, L.dtype, L.local_shape⟩ st := rfl

/-- Importing a shard's own export reduces to re-construction from its own
descriptors, grid, and buffer view. -/
theorem importDescriptor_exportArr_construct (L : LocalArray) (rank : Nat)
    (st : Store) :
    importDescriptor (exportArr L) rank st
      = LocalArray.construct L.dim_data (L.dim_data.filterMap DimSpec.pgsOf)
          rank L.dtype (some ⟨L.bufId, L.dtype, L.local_shape⟩) st := by
  rw [importDescriptor_exportArr, parseDims_map]
  rfl

/-- Round trip: a validly constructed LocalArray, exported and re-imported
at its own rank, reconstructs the very same LocalArray without touching
the store. -/
theorem constructRoundTrip (dd : List DimSpec) (gs : List Nat) (rank : Nat)
    (dtype : String) (buf : Option BufferView) (st : Store)
    (L : LocalArray) (st' : Store)
    (h : LocalArray.construct dd gs rank dtype buf st = .ok (L, st')) :
    importDescriptor (exportArr L) L.rank st' = .ok (L, st') := by
  cases buf with
  | some v =>
    unfold LocalArray.construct at h
    simp only [] at h
    split at h
    case isFalse => simp at h
    case isTrue hcg =>
      split at h
      case isFalse => simp at h
      case isTrue hrank =>
        have hfm : (assignCoords dd (unravel gs rank)).filterMap DimSpec.pgsOf
            = gs := by
          rw [filterMap_assignCoords]
          exact (checkGridDims_iff dd gs).mp hcg
        split at h
        next hlen =>
          split at h
          next hsz =>
            rw [Except.ok.injEq, Prod.mk.injEq] at h
            obtain ⟨hL, hst⟩ := h
            subst hst
            subst hL
            rw [importDescriptor_exportArr_construct]
            simp only [hfm]
            unfold LocalArray.construct
            rw [if_pos ((checkGridDims_iff _ _).mpr hfm), if_pos hrank]
            simp [assignCoords_idem, hlen, hsz, length_assignCoords]
          next hsz => simp at h
        next hlen => simp at h
  | none =>
    unfold LocalArray.construct at h
    simp only [] at h
    split at h
    case isFalse => simp at h
    case isTrue hcg =>
      split at h
      case isFalse => simp at h
      case isTrue hrank =>
        have hfm : (assignCoords dd (unravel gs rank)).filterMap DimSpec.pgsOf
            = gs := by
          rw [filterMap_assignCoords]
          exact (checkGridDims_iff dd gs).mp hcg
        rw [Except.ok.injEq, Prod.mk.injEq] at h
        obtain ⟨hL, hst⟩ := h
        subst hst
        subst hL
        rw [importDescriptor_exportArr_construct]
        simp only [hfm]
        unfold LocalArray.construct
        rw [if_pos ((checkGridDims_iff _ _).mpr hfm), if_pos hrank]
        simp [assignCoords_idem, length_assignCoords, Store.alloc,
          Store.read_alloc]

/-- Lookup in an appended association list falls through to the second
list only when the key is absent from the first. -/
theorem alookup_append {κ α : Type} [DecidableEq κ]
    (l1 l2 : List (κ × α)) (k : κ) :
    alookup (l1 ++ l2) k
      = match alookup l1 k with
        | some v => some v
        | none => alookup l2 k := by
  induction l1 with
  | nil => simp [alookup]
  | cons p rest ih =>
    obtain ⟨k0, v0⟩ := p
    by_cases hk : k0 = k
    · simp [alookup, hk]
    · simp [alookup, hk, ih]

/-- A key bound in no entry of an association list looks up to nothing. -/
theorem alookup_eq_none {κ α : Type} [DecidableEq κ]
    (l : List (κ × α)) (k : κ) (h : ∀ p ∈ l, p.1 ≠ k) :
    alookup l k = none := by
  induction l with
  | nil => rfl
  | cons p rest ih =>
    obtain ⟨k0, v0⟩ := p
    have hk : k0 ≠ k := h (k0, v0) (List.mem_cons_self _ _)
    simp [alookup, hk]
    exact ih fun q hq => h q (List.mem_cons_of_mem _ hq)

/-- Entries of the `dist` mapping whose dimension index is at least `n` do
not affect the per-dimension tag of any dimension below `n`. -/
theorem distChar_append (dist extra : List (Nat × Char)) (n i : Nat)
    (hextra : ∀ p ∈ extra, n ≤ p.1) (hi : i < n) :
    distChar (dist ++ extra) i = distChar dist i := by
  unfold distChar
  rw [alookup_append]
  have hnone : alookup extra i = none :=
    alookup_eq_none extra i fun p hp => by
      have := hextra p hp
      omega
  match h : alookup dist i with
  | some ch => simp
  | none => simp [hnone]

/-- `buildDims` only consults the `dist` mapping at the dimension indices
`i, i+1, ..., i+len-1` that actually exist. -/
theorem buildDims_congr (sizes : List Nat) (dc1 dc2 : Nat → Char) (i : Nat)
    (grid : List Nat)
    (h : ∀ j, i ≤ j → j < i + sizes.length → dc1 j = dc2 j) :
    buildDims sizes dc1 i grid = buildDims sizes dc2 i grid := by
  induction sizes generalizing i grid with
  | nil => rfl
  | cons size rest ih =>
    have hi : dc1 i = dc2 i := h i (Nat.le_refl i) (by simp)
    have hrest : ∀ j, i + 1 ≤ j → j < i + 1 + rest.length → dc1 j = dc2 j :=
      fun j h1 h2 => h j (by omega) (by simp; omega)
    unfold buildDims
    rw [hi]
    by_cases hn : dc2 i = 'n'
    · simp [hn, ih (i + 1) grid hrest]
    · by_cases hb : dc2 i = 'b'
      · cases grid with
        | nil => simp [hn, hb]
        | cons g grid' => simp [hn, hb, ih (i + 1) grid' hrest]
      · by_cases hc : dc2 i = 'c'
        · cases grid with
          | nil => simp [hn, hb, hc]
          | cons g grid' => simp [hn, hb, hc, ih (i + 1) grid' hrest]
        · simp [hn, hb, hc]

/-- Reading back a mutated buffer sees the written element. -/
theorem Store.read_write (st : Store) (id i : Nat) (v : Int) :
    Store.read (Store.write st id i v) id = (Store.read st id).set i v := by
  unfold Store.write Store.read
  rcases Nat.lt_or_ge id st.length with hlt | hge
  · rw [List.getD_eq_getElem?_getD, List.getElem?_set_self, List.getD_eq_getElem?_getD]
    · simp [List.getElem?_eq_getElem hlt]
    · exact hlt
  · rw [List.set_eq_of_length_le hge, List.getD_eq_default _ _ hge]
    rfl

/-! ## Claim theorems -/

/-- C1: for every validly constructed LocalArray (any global shape, any
distribution kinds, any grid placement, any buffer contents), importing
the descriptor produced by exporting it yields a LocalArray equal to it in
global shape, per-dimension distribution, grid shape and placement, local
shape, and element-wise buffer contents. -/
theorem round_trip_equality (dd : List DimSpec) (gs : List Nat) (rank : Nat)
    (dtype : String) (buf : Option BufferView) (st : Store)
    (L : LocalArray) (st' : Store)
    (h : LocalArray.construct dd gs rank dtype buf st = .ok (L, st')) :
    ∃ L' st'', importDescriptor (exportArr L) L.rank st' = .ok (L', st'') ∧
      L'.global_shape = L.global_shape ∧ L'.dim_data = L.dim_data ∧
      L'.grid_shape = L.grid_shape ∧ L'.rank = L.rank ∧
      L'.local_shape = L.local_shape ∧
      L'.contents st'' = L.contents st' :=
  ⟨L, st', constructRoundTrip dd gs rank dtype buf st L st' h,
    rfl, rfl, rfl, rfl, rfl, rfl⟩

theorem round_trip_equality_witness :
    ∃ L' st'', importDescriptor (exportArr c1arr) c1arr.rank c1store
        = .ok (L', st'') ∧
      L'.global_shape = c1arr.global_shape ∧ L'.dim_data = c1arr.dim_data ∧
      L'.grid_shape = c1arr.grid_shape ∧ L'.rank = c1arr.rank ∧
      L'.local_shape = c1arr.local_shape ∧
      L'.contents st'' = c1arr.contents c1store :=
  round_trip_equality [⟨16, .b 4 0 4 0⟩, ⟨16, .n⟩] [4] 2 "float64" none []
    c1arr c1store (by decide)

/-- C9: the LocalArray reconstructed by importing an exported descriptor
has a local buffer of exactly the same element type (dtype) as the source
array, in addition to the same local shape and contents — for every
element type tag, including uint8, complex128 and float64. -/
theorem round_trip_dtype (dd : List DimSpec) (gs : List Nat) (rank : Nat)
    (dtype : String) (buf : Option BufferView) (st : Store)
    (L : LocalArray) (st' : Store)
    (h : LocalArray.construct dd gs rank dtype buf st = .ok (L, st')) :
    (importDescriptor (exportArr L) L.rank st').map
        (fun p => (p.1.dtype, p.1.local_shape, p.1.contents p.2))
      = .ok (L.dtype, L.local_shape, L.contents st') := by
  rw [constructRoundTrip dd gs rank dtype buf st L st' h]
  rfl

theorem round_trip_dtype_witness :
    (importDescriptor (exportArr c9arr) c9arr.rank c9store).map
        (fun p => (p.1.dtype, p.1.local_shape, p.1.contents p.2))
      = .ok (c9arr.dtype, c9arr.local_shape, c9arr.contents c9store) :=
  round_trip_dtype [⟨16, .b 4 0 4 0⟩, ⟨16, .n⟩] [4] 0 "uint8" none []
    c9arr c9store (by decide)

/-- C2 counterexample: the claim "the imported LocalArray owns a buffer
copied from the descriptor's buffer view, so mutating the imported shard's
buffer leaves the source shard's buffer unchanged" is false at a concrete
input: importing the exported rank-0 lopsided shard yields a shard with
the same buffer identity, and writing 99 at offset 0 through the imported
shard changes the source shard's contents (exactly what the shipped
`test_round_trip_identity` asserts must happen). -/
theorem round_trip_copy_counterexample :
    importDescriptor (exportArr c3arr0) 0 [arange 20] = .ok (c3arr0, [arange 20]) ∧
    ¬ (c3arr0.contents (Store.write [arange 20] c3arr0.bufId 0 99)
        = c3arr0.contents [arange 20]) := by
  constructor
  · decide
  · decide

/-- C2 amended: the LocalArray produced by importing an exported
descriptor adopts the descriptor's buffer view without copying: it has the
same buffer identity as the source shard, so a write through the imported
shard's buffer is seen element-for-element by the source shard (as
`test_round_trip_identity` asserts). -/
theorem round_trip_buffer_alias (dd : List DimSpec) (gs : List Nat)
    (rank : Nat) (dtype : String) (buf : Option BufferView) (st : Store)
    (L : LocalArray) (st' : Store)
    (h : LocalArray.construct dd gs rank dtype buf st = .ok (L, st')) :
    ∃ L', importDescriptor (exportArr L) L.rank st' = .ok (L', st') ∧
      L'.bufId = L.bufId ∧
      ∀ i v, L.contents (Store.write st' L'.bufId i v)
          = (L.contents st').set i v := by
  refine ⟨L, constructRoundTrip dd gs rank dtype buf st L st' h, rfl, ?_⟩
  intro i v
  exact Store.read_write st' L.bufId i v

theorem round_trip_buffer_alias_witness :
    ∃ L', importDescriptor (exportArr c3arr0) c3arr0.rank [arange 20]
        = .ok (L', [arange 20]) ∧
      L'.bufId = c3arr0.bufId ∧
      ∀ i v, c3arr0.contents (Store.write [arange 20] L'.bufId i v)
          = (c3arr0.contents [arange 20]).set i v :=
  round_trip_buffer_alias [⟨50, .b 2 0 25 0⟩] [2] 0 "float64"
    (some ⟨0, "float64", [20]⟩) [arange 20] c3arr0 [arange 20] (by decide)

/-- C3: constructing a LocalArray with an explicitly supplied buffer whose
per-shard size differs from the balanced block formula — shard 0 of size
20 and shard 1 of size 30 for a size-50 dimension block-distributed over 2
ranks (balanced would be 25/25) — succeeds without error, and exporting
then re-importing each shard preserves the exact local sizes 20 and 30 and
the buffer contents. -/
theorem lopsided_support :
    (LocalArray.create [50] [(0, 'b'), (1, 'n')] [2] 0 "float64"
        (some ⟨0, "float64", [20]⟩) [arange 20] = .ok (c3arr0, [arange 20]) ∧
      c3arr0.local_shape = [20] ∧
      importDescriptor (exportArr c3arr0) 0 [arange 20]
        = .ok (c3arr0, [arange 20]) ∧
      c3arr0.contents [arange 20] = arange 20) ∧
    (LocalArray.create [50] [(0, 'b'), (1, 'n')] [2] 1 "float64"
        (some ⟨0, "float64", [30]⟩) [arange 30] = .ok (c3arr1, [arange 30]) ∧
      c3arr1.local_shape = [30] ∧
      importDescriptor (exportArr c3arr1) 1 [arange 30]
        = .ok (c3arr1, [arange 30]) ∧
      c3arr1.contents [arange 30] = arange 30) := by
  refine ⟨⟨by decide, by decide, by decide, by decide⟩,
    ⟨by decide, by decide, by decide, by decide⟩⟩

/-- C4: for every Block (default block size), Cyclic, or BlockCyclic
distributed dimension with global extent `size` and grid extent `gs`, the
owned global-index sets of the ranks `0..gs-1` are pairwise disjoint and
their union is exactly `[0, size)`: every global index below `size` is
owned by exactly one rank. -/
theorem partition_completeness (size gs bs pad : Nat) (per : Bool)
    (hgs : 0 < gs) (_hbs : 0 < bs) :
    (∀ g, g < size ↔ ∃! r, r < gs ∧
        ownedIndex ⟨size, .b gs r (blockSizeDefault size gs) pad⟩ g) ∧
    (∀ g, g < size ↔ ∃! r, r < gs ∧ ownedIndex ⟨size, .c gs r per⟩ g) ∧
    (∀ g, g < size ↔ ∃! r, r < gs ∧ bcOwns size gs bs r g) :=
  ⟨fun g => blockPartition size gs pad g hgs,
   fun g => cyclicPartition size gs g per hgs,
   fun g => blockCyclicPartition size gs bs g hgs⟩

theorem partition_completeness_witness :
    (∀ g, g < 5 ↔ ∃! r, r < 2 ∧
        ownedIndex ⟨5, .b 2 r (blockSizeDefault 5 2) 1⟩ g) ∧
    (∀ g, g < 5 ↔ ∃! r, r < 2 ∧ ownedIndex ⟨5, .c 2 r false⟩ g) ∧
    (∀ g, g < 5 ↔ ∃! r, r < 2 ∧ bcOwns 5 2 2 r g) :=
  partition_completeness 5 2 2 1 false (by decide) (by decide)

set_option maxRecDepth 4000 in
/-- C5: for a Block-distributed dimension with the default block size
`ceil(size / gs)`, shard `r` owns exactly the contiguous interval
`[r*bs, min(size, (r+1)*bs))`; in particular for global shape `(53,77)`
block-distributed in both dimensions over a `(2,2)` grid, the rank with
coordinates `(1,1)` owns global rows `[27,53)` and columns `[39,77)`. -/
theorem block_interval_ownership :
    (∀ size gs r pad g,
        ownedIndex ⟨size, .b gs r (blockSizeDefault size gs) pad⟩ g
          ↔ r * blockSizeDefault size gs ≤ g ∧
            g < min size ((r + 1) * blockSizeDefault size gs)) ∧
    LocalArray.create [53, 77] [(0, 'b'), (1, 'b')] [2, 2] 3 "float64" none []
      = .ok (c5arr, c5store) ∧
    (∀ g, g < 53 → (ownedIndex (c5arr.dim_data.getD 0 ⟨0, .n⟩) g ↔ 27 ≤ g)) ∧
    (∀ g, g < 77 → (ownedIndex (c5arr.dim_data.getD 1 ⟨0, .n⟩) g ↔ 39 ≤ g)) := by
  refine ⟨fun size gs r pad g => blockOwned_iff size gs r _ pad g,
    by decide, by decide, by decide⟩

theorem block_interval_ownership_witness :
    ownedIndex ⟨53, .b 2 1 (blockSizeDefault 53 2) 1⟩ 30
      ↔ 1 * blockSizeDefault 53 2 ≤ 30 ∧
        30 < min 53 ((1 + 1) * blockSizeDefault 53 2) :=
  block_interval_ownership.1 53 2 1 1 30

/-- C6: for every LocalArray, export produces a descriptor whose top-level
keys are exactly `__version__`, `buffer`, and `dim_data`; `dim_data` has
one entry per array dimension, and every entry carries the mandatory keys
`dist_type`, with value among the tags `n`, `b`, `c`, `u`, and `size`, a
non-negative integer. -/
theorem export_keys (L : LocalArray) :
    (exportArr L).map Prod.fst = ["__version__", "buffer", "dim_data"] ∧
    ∃ das, alookup (exportArr L) "dim_data" = some (.dims das) ∧
      das.length = L.ndim ∧
      ∀ dd ∈ das,
        (∃ t, alookup dd "dist_type" = some (.str t) ∧
          (t = "n" ∨ t = "b" ∨ t = "c" ∨ t = "u")) ∧
        (∃ sz : Int, alookup dd "size" = some (.int sz) ∧ 0 ≤ sz) := by
  refine ⟨rfl, L.dim_data.map dimToAlist, rfl, by simp [LocalArray.ndim], ?_⟩
  intro dd hdd
  obtain ⟨d, _, rfl⟩ := List.mem_map.mp hdd
  obtain ⟨size, dist⟩ := d
  cases dist with
  | n => exact ⟨⟨"n", rfl, by simp⟩, ⟨size, rfl, by positivity⟩⟩
  | b g r bs pad => exact ⟨⟨"b", rfl, by simp⟩, ⟨size, rfl, by positivity⟩⟩
  | c g r per => exact ⟨⟨"c", rfl, by simp⟩, ⟨size, rfl, by positivity⟩⟩
  | u g r idxs => exact ⟨⟨"u", rfl, by simp⟩, ⟨size, rfl, by positivity⟩⟩

theorem export_keys_witness :
    (exportArr c5arr).map Prod.fst = ["__version__", "buffer", "dim_data"] ∧
    ∃ das, alookup (exportArr c5arr) "dim_data" = some (.dims das) ∧
      das.length = c5arr.ndim ∧
      ∀ dd ∈ das,
        (∃ t, alookup dd "dist_type" = some (.str t) ∧
          (t = "n" ∨ t = "b" ∨ t = "c" ∨ t = "u")) ∧
        (∃ sz : Int, alookup dd "size" = some (.int sz) ∧ 0 ≤ sz) :=
  export_keys c5arr

/-- C7: for every grid shape of positive integers, every rank inside the
grid unravels to row-major Cartesian coordinates that ravel back to the
same rank, and every rank outside `[0, product(shape))` fails with
`InvalidRank`. -/
theorem grid_coordinate_bijection (shape : List Nat)
    (_hpos : ∀ s ∈ shape, 0 < s) :
    (∀ rank, rank < listProd shape →
      rankToCoords shape rank = .ok (unravel shape rank) ∧
      coordsToRank shape (unravel shape rank) = rank) ∧
    (∀ rank, listProd shape ≤ rank →
      rankToCoords shape rank = .error .invalidRank) := by
  constructor
  · intro rank hrank
    constructor
    · unfold rankToCoords
      rw [if_pos hrank]
    · rw [coordsToRank_unravel, Nat.mod_eq_of_lt hrank]
  · intro rank hrank
    unfold rankToCoords
    rw [if_neg (by omega)]

theorem grid_coordinate_bijection_witness :
    (∀ rank, rank < listProd [2, 3] →
      rankToCoords [2, 3] rank = .ok (unravel [2, 3] rank) ∧
      coordsToRank [2, 3] (unravel [2, 3] rank) = rank) ∧
    (∀ rank, listProd [2, 3] ≤ rank →
      rankToCoords [2, 3] rank = .error .invalidRank) :=
  grid_coordinate_bijection [2, 3] (by decide)

/-- C8: constructing a LocalArray with `grid_shape = (4,)` where exactly
one dimension is distributed but that dimension's `proc_grid_size` is not
4 fails with `InvalidGridCoordinate`, eagerly at construction time (the
constructor returns the error; nothing is built or allocated). -/
theorem invalid_grid_coordinate (dims : List DimSpec) (g : Nat)
    (hone : dims.filterMap DimSpec.pgsOf = [g]) (hne : g ≠ 4)
    (rank : Nat) (dtype : String) (buf : Option BufferView) (st : Store) :
    LocalArray.construct dims [4] rank dtype buf st
      = .error .invalidGridCoordinate := by
  unfold LocalArray.construct
  rw [if_neg]
  intro hcg
  rw [checkGridDims_iff] at hcg
  rw [hone] at hcg
  exact hne (by injection hcg)

theorem invalid_grid_coordinate_witness :
    LocalArray.construct [⟨50, .b 3 0 17 1⟩] [4] 0 "float64" none []
      = .error .invalidGridCoordinate :=
  invalid_grid_coordinate [⟨50, .b 3 0 17 1⟩] 3 (by decide) (by decide)
    0 "float64" none []

/-- C10: entries of the `dist` mapping whose dimension index is at least
the number of dimensions are ignored by construction rather than rejected;
in particular a 1-D array of global shape `(50,)` with
`dist = {0: 'b', 1: 'n'}` is constructed without error. -/
theorem dist_extra_entries_ignored (shape : List Nat)
    (dist extra : List (Nat × Char))
    (hextra : ∀ p ∈ extra, shape.length ≤ p.1)
    (grid : List Nat) (rank : Nat) (dtype : String) (buf : Option BufferView)
    (st : Store) :
    LocalArray.create shape (dist ++ extra) grid rank dtype buf st
      = LocalArray.create shape dist grid rank dtype buf st ∧
    LocalArray.create [50] [(0, 'b'), (1, 'n')] [2] 0 "float64" none []
      = .ok (c10arr, c10store) := by
  constructor
  · unfold LocalArray.create
    rw [buildDims_congr shape (distChar (dist ++ extra)) (distChar dist) 0 grid
      (fun j _ hj => distChar_append dist extra shape.length j hextra (by omega))]
  · decide

theorem dist_extra_entries_ignored_witness :
    LocalArray.create [50] ([(0, 'b')] ++ [(1, 'n')]) [2] 0 "float64" none []
      = LocalArray.create [50] [(0, 'b')] [2] 0 "float64" none [] ∧
    LocalArray.create [50] [(0, 'b'), (1, 'n')] [2] 0 "float64" none []
      = .ok (c10arr, c10store) :=
  dist_extra_entries_ignored [50] [(0, 'b')] [(1, 'n')] (by decide)
    [2] 0 "float64" none []
